import Mathlib

/-!
Verification of the retrieval-and-answer core of the rag-system-demo repository.

The Python source is shallowly embedded: pure functions become Lean functions,
external collaborators (the unicode normalizer, the langchain splitter, the
pgvector distance operator, the remote embedding and language models, the
database session) become explicit function parameters or environment records,
and raised exceptions become Except values.  Machine-level details that the
claims do not touch (timestamps, UUID values) are modelled by Nat identifiers.
-/

/-- Model of the whitespace class used by the Python code (the regular
expression class backslash-s in re.sub, and the default str.strip set):
space, tab, newline, carriage return, vertical tab and form feed. -/
def isPyWs (c : Char) : Bool :=
  c == ' ' || c == '\t' || c == '\n' || c == '\r' || c == '\x0b' || c == '\x0c'

/-- Core of the collapse step of clean_text, from text_processing.py line 23:
re.sub of one-or-more whitespace by a single ASCII space.  The flag records
whether the previous character was whitespace (so that a run emits exactly one
space). -/
def collapseAux : Bool → List Char → List Char
  | _, [] => []
  | prevWs, c :: cs =>
    if isPyWs c then
      if prevWs then collapseAux true cs
      else ' ' :: collapseAux true cs
    else c :: collapseAux false cs

/-- Replace every maximal whitespace run by a single space (re.sub of the
whitespace class by a space). -/
def collapseWs (l : List Char) : List Char :=
  collapseAux false l

/-- Drop trailing whitespace (the right half of str.strip). -/
def dropEndWs (l : List Char) : List Char :=
  (l.reverse.dropWhile isPyWs).reverse

/-- Model of Python str.strip on a character list: drop leading and trailing
whitespace. -/
def stripWs (l : List Char) : List Char :=
  dropEndWs (l.dropWhile isPyWs)

/-- Model of Python str.strip on strings. -/
def pyStrip (s : String) : String :=
  (stripWs s.toList).asString

/-- Collapse then strip, on character lists: the pure whitespace part of
clean_text after the unicode normalization. -/
def cleanChars (l : List Char) : List Char :=
  stripWs (collapseWs l)

/-- Embedding of clean_text (text_processing.py lines 9-28).  The call to
unicodedata.normalize with form NFC is an external library call and is passed
in as the function nfc; the rest is the whitespace collapse and the final
strip, exactly in the order of the source. -/
def clean_text (nfc : String → String) (text : String) : String :=
  (cleanChars (nfc text).toList).asString

/-- Shape of a whitespace-normalized character list: every whitespace
character is the ASCII space, no two adjacent characters are both whitespace,
and neither end is whitespace. -/
def wsNormalized (l : List Char) : Prop :=
  (∀ c ∈ l, isPyWs c = true → c = ' ')
  ∧ List.Chain' (fun a b => ¬(isPyWs a = true ∧ isPyWs b = true)) l
  ∧ (∀ c, l.head? = some c → isPyWs c = false)
  ∧ (∀ c, l.getLast? = some c → isPyWs c = false)

/-- Model of Python str.split with no separator argument: split on whitespace
runs and drop empty pieces. -/
def pyWords (s : String) : List String :=
  (s.split (fun c => isPyWs c)).filter (fun w => !(w == ""))

/-- Model of the Python expression `x or d` for an optional integer argument x
with integer default d: None and 0 are falsy, so both select the default.
This is the resolution used at chunking_service.py lines 42-43. -/
def pyOrNat : Option Nat → Nat → Nat
  | none, d => d
  | some v, d => if v = 0 then d else v

/-- The two configuration fields of ChunkingService (chunking_service.py
lines 13-22); the constructor defaults are 600 and 100. -/
structure ChunkingService where
  chunk_size : Nat
  chunk_overlap : Nat

/-- Default-constructed ChunkingService (chunk_size 600, chunk_overlap 100). -/
def ChunkingService.default : ChunkingService :=
  { chunk_size := 600, chunk_overlap := 100 }

/-- One chunk descriptor as built by chunk_text (chunking_service.py
lines 76-83). -/
structure ChunkDict where
  content : String
  page_number : Nat
  chunk_index : Nat
  word_count : Nat
deriving DecidableEq, Repr

/-- Ascending order on page-number keys, used to model iteration over
sorted(pages_dict.keys()). -/
def pageOrder (a b : Nat × String) : Prop :=
  a.1 ≤ b.1

instance : DecidableRel pageOrder :=
  fun a b => inferInstanceAs (Decidable (a.1 ≤ b.1))

/-- Iterate the pages of the input mapping in ascending page-number order
(chunking_service.py line 60). -/
def sortPages (ps : List (Nat × String)) : List (Nat × String) :=
  List.insertionSort pageOrder ps

/-- Inner loop of chunk_text over the splitter output of one page
(chunking_service.py lines 72-84): skip whitespace-only candidate chunks,
strip the kept ones, assign the running chunk_index, count words of the
unstripped candidate. -/
def pageChunks (pageNum : Nat) : Nat → List String → List ChunkDict
  | _, [] => []
  | startIdx, t :: rest =>
    if pyStrip t = "" then pageChunks pageNum startIdx rest
    else
      { content := pyStrip t, page_number := pageNum, chunk_index := startIdx,
        word_count := (pyWords t).length } :: pageChunks pageNum (startIdx + 1) rest

/-- Outer loop of chunk_text over the sorted pages (chunking_service.py
lines 60-84): pages whose raw text strips to empty are skipped, the others are
cleaned, split, and their chunks appended with a global running index. -/
def pagesChunks (nfc : String → String) (split : String → List String) :
    List (Nat × String) → Nat → List ChunkDict
  | [], _ => []
  | (k, t) :: rest, idx =>
    if pyStrip t = "" then pagesChunks nfc split rest idx
    else
      pageChunks k idx (split (clean_text nfc t))
        ++ pagesChunks nfc split rest
            (idx + (pageChunks k idx (split (clean_text nfc t))).length)

/-- Embedding of ChunkingService.chunk_text (chunking_service.py lines 24-86).
The langchain RecursiveCharacterTextSplitter is an external collaborator and
is passed in as split, taking the resolved character chunk size and character
overlap (token budget times 4, lines 47-48) and the cleaned page text.  The
unicode normalizer nfc is threaded through to clean_text. -/
def chunk_text (nfc : String → String) (split : Nat → Nat → String → List String)
    (svc : ChunkingService) (pages : List (Nat × String))
    (chunk_size overlap : Option Nat) : List ChunkDict :=
  let cs := pyOrNat chunk_size svc.chunk_size
  let ov := pyOrNat overlap svc.chunk_overlap
  pagesChunks nfc (split (cs * 4) (ov * 4)) (sortPages pages) 0

/-- Exception values raised along the question-answering path.  The first
three mirror the exception classes of utils/exceptions.py (all subclasses of
RAGSystemError); attributeError mirrors the Python builtin AttributeError,
which is not a RAGSystemError. -/
inductive PyErr where
  | ragSystemError (msg : String)
  | embeddingServiceError (msg : String)
  | llmServiceError (msg : String)
  | attributeError (msg : String)
deriving DecidableEq, Repr

/-- Model of isinstance(e, RAGSystemError): true for the domain exception
classes, false for builtins such as AttributeError. -/
def PyErr.isRAGSystemError : PyErr → Bool
  | .ragSystemError _ => true
  | .embeddingServiceError _ => true
  | .llmServiceError _ => true
  | .attributeError _ => false

/-- Model of Python str(e): the message carried by the exception. -/
def PyErr.message : PyErr → String
  | .ragSystemError m => m
  | .embeddingServiceError m => m
  | .llmServiceError m => m
  | .attributeError m => m

/-- The batches produced by the slicing loop of embed_batch
(embedding_service.py lines 72-73): texts is cut into consecutive groups of
max_batch_size elements, the last group possibly shorter.  The step of a
Python range must be positive; a zero batch size never reaches the loop in
the embedded code paths and is mapped to no groups. -/
def chunksOf : Nat → List String → List (List String)
  | _, [] => []
  | 0, _ :: _ => []
  | n + 1, x :: xs => ((x :: xs).take (n + 1)) :: chunksOf (n + 1) ((x :: xs).drop (n + 1))
termination_by _ l => l.length
decreasing_by
  simp only [List.length_drop, List.length_cons]
  omega

/-- The batch loop of embed_batch (embedding_service.py lines 72-78): one
remote call per group, results concatenated; the first failing call aborts
the loop.  Returns the loop outcome together with the list of remote calls
that were actually issued. -/
def embedLoop (remote : List String → Except String (List (List Rat))) :
    List (List String) → Except String (List (List Rat)) × List (List String)
  | [] => (Except.ok [], [])
  | b :: bs =>
    match remote b with
    | Except.error e => (Except.error e, [b])
    | Except.ok es =>
      match embedLoop remote bs with
      | (Except.error e, calls) => (Except.error e, b :: calls)
      | (Except.ok rest, calls) => (Except.ok (es ++ rest), b :: calls)

/-- The entry filter of embed_batch (embedding_service.py line 64): Python
keeps t when both t and t.strip() are truthy, which is exactly when the
stripped text is non-empty. -/
def validTexts (texts : List String) : List String :=
  texts.filter (fun t => !(pyStrip t == ""))

/-- Embedding of EmbeddingService.embed_batch (embedding_service.py
lines 46-82).  The remote model call is the parameter remote; a remote
failure is wrapped into EmbeddingServiceError with the message prefix of
line 82.  The second component records the remote calls issued. -/
def embed_batch (remote : List String → Except String (List (List Rat)))
    (texts : List String) (max_batch_size : Nat) :
    Except PyErr (List (List Rat)) × List (List String) :=
  if texts.isEmpty then (Except.ok [], [])
  else
    let ne := validTexts texts
    if ne.isEmpty then
      (Except.error (PyErr.embeddingServiceError
        "No hay textos válidos para generar embeddings"), [])
    else
      match embedLoop remote (chunksOf max_batch_size ne) with
      | (Except.error e, calls) =>
        (Except.error (PyErr.embeddingServiceError
          ("Error al generar embeddings en batch: " ++ e)), calls)
      | (Except.ok es, calls) => (Except.ok es, calls)

/-- One stored row of the chunks table (models/chunk.py): the embedding
column is nullable. -/
structure StoredChunk where
  id : Nat
  document_id : Nat
  content : String
  embedding : Option (List Rat)
  page_number : Nat
  chunk_index : Nat
  word_count : Nat

/-- Descending order on the similarity component of a result row.  Since the
similarity is one minus the cosine distance, ordering by ascending distance
(the ORDER BY of vector_repo.py lines 117 and 130) is the same ordering. -/
def scoreOrder (a b : StoredChunk × Rat) : Prop :=
  b.2 ≤ a.2

instance : DecidableRel scoreOrder :=
  fun a b => inferInstanceAs (Decidable (b.2 ≤ a.2))

instance : IsTotal (StoredChunk × Rat) scoreOrder :=
  ⟨fun a b => le_total b.2 a.2⟩

instance : IsTrans (StoredChunk × Rat) scoreOrder :=
  ⟨fun _ _ _ h1 h2 => le_trans h2 h1⟩

/-- The WHERE clause document filter of the similarity query
(vector_repo.py lines 107-133). -/
def docMatch (document_id : Option Nat) (c : StoredChunk) : Bool :=
  match document_id with
  | some d => c.document_id == d
  | none => true

/-- Embedding of VectorRepository.similarity_search (vector_repo.py
lines 65-161).  The pgvector cosine distance operator is the parameter dist,
applied to a stored embedding and the query embedding; the table rows are the
parameter table.  Rows with a null embedding are excluded, the similarity is
one minus the distance, rows below min_score are filtered out, the rest are
ordered by ascending distance (equivalently descending similarity) and cut to
top_k rows. -/
def similarity_search (dist : List Rat → List Rat → Rat) (table : List StoredChunk)
    (embedding : List Rat) (top_k : Nat) (min_score : Rat)
    (document_id : Option Nat) : List (StoredChunk × Rat) :=
  (List.insertionSort scoreOrder
    (((table.filterMap (fun c => c.embedding.map (fun e => (c, e)))).filter
        (fun ce => docMatch document_id ce.1
          && decide (min_score ≤ 1 - dist ce.2 embedding))).map
      (fun ce => (ce.1, 1 - dist ce.2 embedding)))).take top_k

/-- Prefix test on character lists (the stepping stone for the Python
substring operator). -/
def startsWithL : List Char → List Char → Bool
  | [], _ => true
  | _ :: _, [] => false
  | a :: as, b :: bs => a == b && startsWithL as bs

/-- Substring test on character lists: the needle occurs contiguously
somewhere in the haystack. -/
def containsSub (needle : List Char) : List Char → Bool
  | [] => needle.isEmpty
  | c :: cs => startsWithL needle (c :: cs) || containsSub needle cs

/-- Model of the Python expression `needle in haystack` on strings. -/
def pyIn (needle hay : String) : Bool :=
  containsSub needle.toList hay.toList

/-- The system prompt template of core/prompts.py lines 4-16, verbatim. -/
def SYSTEM_PROMPT_TEMPLATE : String :=
  "Eres un asistente útil que responde preguntas basándose EXCLUSIVAMENTE en el contexto proporcionado de un documento PDF.\n\nREGLAS ESTRICTAS:\n1. Si la respuesta NO está en el contexto, debes responder: \"Lo siento, esa información no se encuentra en el documento. ¿Podrías reformular tu pregunta o hacer otra relacionada con el contenido?\"\n2. SIEMPRE debes incluir las páginas de referencia en tu respuesta usando el formato: [Página X]\n3. Responde en español claro y natural, adaptado al español chileno cuando sea apropiado\n4. NO inventes información que no esté en el contexto\n5. Si el contexto es insuficiente o ambiguo, pide más detalles al usuario\n\nCONTEXTO DEL DOCUMENTO:\n{context}\n\nResponde la siguiente pregunta basándote ÚNICAMENTE en el contexto anterior."

/-- The fixed refusal phrase of rag_service.py line 51. -/
def NOT_ANSWERABLE_PHRASE : String :=
  "Lo siento, esa información no se encuentra en el documento"

/-- The fixed no-relevant-information apology of rag_service.py line 118. -/
def NO_RELEVANT_INFO_MESSAGE : String :=
  "Lo siento, no encontré información relevante en el documento para responder tu pregunta."

/-- A runtime argument element handed to format_context_from_chunks.  The
function's own docstring expects dictionaries with content and page_number
entries (read with .get and the defaults of prompts.py lines 50-51), but its
caller in rag_service.py passes (chunk, score) tuples; the two shapes are
kept apart so the dynamic behavior of .get on each is modelled exactly. -/
inductive CtxArg where
  | dict (content : Option String) (page_number : Option Int)
  | tup (chunk : StoredChunk) (score : Rat)

/-- The page label of one context block: chunk.get of page_number with
default question mark (prompts.py line 50). -/
def pageLabel : Option Int → String
  | some n => toString n
  | none => "?"

/-- One context block (prompts.py line 52): bracketed 1-based rank and page
label, newline, content. -/
def ctxBlock (i : Nat) (page content : String) : String :=
  "[Fragmento " ++ toString i ++ " - Página " ++ page ++ "]\n" ++ content

/-- The enumerate loop of format_context_from_chunks (prompts.py lines 49-52)
starting at rank i.  Calling .get on a tuple element raises AttributeError,
exactly as the Python attribute lookup does. -/
def formatArgs (i : Nat) : List CtxArg → Except PyErr (List String)
  | [] => Except.ok []
  | a :: rest =>
    match a with
    | CtxArg.tup _ _ =>
      Except.error (PyErr.attributeError "tuple object has no attribute get")
    | CtxArg.dict content page? =>
      match formatArgs (i + 1) rest with
      | Except.error e => Except.error e
      | Except.ok bs => Except.ok (ctxBlock i (pageLabel page?) (content.getD "") :: bs)

/-- Embedding of format_context_from_chunks (prompts.py lines 35-54): fixed
sentence on an empty list, otherwise the blocks joined by blank lines. -/
def format_context_from_chunks (chunks : List CtxArg) : Except PyErr String :=
  if chunks.isEmpty then
    Except.ok "No se encontró información relevante en el documento."
  else
    match formatArgs 1 chunks with
    | Except.error e => Except.error e
    | Except.ok blocks => Except.ok (String.intercalate "\n\n" blocks)

/-- The answerability classification of rag_service.py line 152: the answer
is answerable exactly when it does not contain the fixed refusal phrase. -/
def is_answerable_of (answer : String) : Bool :=
  !(pyIn NOT_ANSWERABLE_PHRASE answer)

/-- The response record built by RAGService (rag_service.py lines 19-44). -/
structure RAGResponse where
  answer : String
  is_answerable : Bool
  retrieved_chunks_count : Nat
  tokens_used : Nat
  chunk_ids : List Nat
deriving DecidableEq, Repr

/-- Observable side effects of one answer_question call: whether the
retrieval service was invoked, whether the language model was invoked,
whether an audit-log write was attempted, and whether it succeeded. -/
structure AQTrace where
  retrieveCalled : Bool
  llmCalled : Bool
  logAttempted : Bool
  logWritten : Bool
deriving DecidableEq, Repr

/-- The logging-scope document id (rag_service.py lines 97-100): the caller
supplied document id when given (a UUID value is always truthy), else the
first stored document id. -/
def logDocId (document_id firstDoc : Option Nat) : Option Nat :=
  match document_id with
  | some d => some d
  | none => firstDoc

/-- The collaborators of RAGService (rag_service.py lines 53-72): the
retrieval service, the language model service, the first stored document id
(what document_repo.list_all with limit one yields, none on failure or when
no document exists, per lines 219-234), and whether the query-log write
succeeds. -/
structure RAGEnv where
  retrieve : String → Option Nat → Except PyErr (List (StoredChunk × Rat))
  llm : String → Except PyErr (String × Nat)
  firstDoc : Option Nat
  logWriteOk : Bool

/-- Wrap of the generic except clause of answer_question (rag_service.py
lines 179-182): a RAGSystemError subclass is re-raised unchanged, anything
else is wrapped with the fixed prefix. -/
def wrapAnswerErr (e : PyErr) : PyErr :=
  if e.isRAGSystemError then e
  else PyErr.ragSystemError ("Error al responder pregunta: " ++ e.message)

/-- Embedding of RAGService.answer_question (rag_service.py lines 74-182).
The empty-question guard is the Python truthiness test of line 92 (question
falsy, or its strip falsy).  The logging document id falls back to the first
stored document (lines 98-100); _log_query swallows its own failures
(lines 204-217), so a log write only shows up in the trace.  On the
non-empty retrieval path the retrieved (chunk, score) tuples are handed to
format_context_from_chunks (line 143) as the tuple values they are. -/
def answer_question (env : RAGEnv) (question : String) (document_id : Option Nat) :
    Except PyErr RAGResponse × AQTrace :=
  if question = "" ∨ pyStrip question = "" then
    (Except.error (PyErr.ragSystemError "No se puede responder pregunta vacía"),
     { retrieveCalled := false, llmCalled := false, logAttempted := false,
       logWritten := false })
  else
    let log_document_id := logDocId document_id env.firstDoc
    match env.retrieve question document_id with
    | Except.error e =>
      (Except.error (wrapAnswerErr e),
       { retrieveCalled := true, llmCalled := false, logAttempted := false,
         logWritten := false })
    | Except.ok chunks_with_scores =>
      if chunks_with_scores.isEmpty then
        let logA := log_document_id.isSome
        (Except.ok
          { answer := NO_RELEVANT_INFO_MESSAGE, is_answerable := false,
            retrieved_chunks_count := 0, tokens_used := 0, chunk_ids := [] },
         { retrieveCalled := true, llmCalled := false, logAttempted := logA,
           logWritten := logA && env.logWriteOk })
      else
        match format_context_from_chunks
            (chunks_with_scores.map (fun p => CtxArg.tup p.1 p.2)) with
        | Except.error e =>
          (Except.error (wrapAnswerErr e),
           { retrieveCalled := true, llmCalled := false, logAttempted := false,
             logWritten := false })
        | Except.ok context =>
          let prompt := SYSTEM_PROMPT_TEMPLATE ++ "\n\nContexto:\n" ++ context
            ++ "\n\nPregunta: " ++ question
          match env.llm prompt with
          | Except.error e =>
            (Except.error (wrapAnswerErr e),
             { retrieveCalled := true, llmCalled := true, logAttempted := false,
               logWritten := false })
          | Except.ok (answer, tokens_used) =>
            let logA := log_document_id.isSome
            (Except.ok
              { answer := answer, is_answerable := is_answerable_of answer,
                retrieved_chunks_count := chunks_with_scores.length,
                tokens_used := tokens_used,
                chunk_ids := chunks_with_scores.map (fun p => p.1.id) },
             { retrieveCalled := true, llmCalled := true, logAttempted := logA,
               logWritten := logA && env.logWriteOk })

/-- Observable side effects of one retrieve_relevant_chunks call. -/
structure RetTrace where
  embedCalled : Bool
  searchCalled : Bool
deriving DecidableEq, Repr

/-- Wrap of the generic except clause of retrieve_relevant_chunks
(retrieval_service.py lines 91-94). -/
def wrapRetrieveErr (e : PyErr) : PyErr :=
  if e.isRAGSystemError then e
  else PyErr.ragSystemError ("Error al recuperar chunks relevantes: " ++ e.message)

/-- Embedding of RetrievalService.retrieve_relevant_chunks
(retrieval_service.py lines 39-94).  The embedding service call and the
vector search are the parameters embed and search; the explicit top_k and
min_similarity arguments override the service defaults only when not None
(lines 72-75, a genuine None test, not truthiness). -/
def retrieve_relevant_chunks (embed : String → Except PyErr (List Rat))
    (search : List Rat → Nat → Rat → Option Nat →
      Except PyErr (List (StoredChunk × Rat)))
    (self_top_k : Nat) (self_min_similarity : Rat)
    (query : String) (document_id : Option Nat)
    (top_k : Option Nat) (min_similarity : Option Rat) :
    Except PyErr (List (StoredChunk × Rat)) × RetTrace :=
  if query = "" ∨ pyStrip query = "" then
    (Except.error (PyErr.ragSystemError "No se puede buscar con consulta vacía"),
     { embedCalled := false, searchCalled := false })
  else
    match embed query with
    | Except.error e =>
      (Except.error (wrapRetrieveErr e),
       { embedCalled := true, searchCalled := false })
    | Except.ok emb =>
      let k := top_k.getD self_top_k
      let ms := min_similarity.getD self_min_similarity
      match search emb k ms document_id with
      | Except.error e =>
        (Except.error (wrapRetrieveErr e),
         { embedCalled := true, searchCalled := true })
      | Except.ok results =>
        (Except.ok results, { embedCalled := true, searchCalled := true })

/-- One concrete stored chunk, used to exercise the concrete evaluations. -/
def sampleChunk : StoredChunk :=
  { id := 1, document_id := 7,
    content := "El sistema RAG combina recuperación y generación.",
    embedding := some [1], page_number := 1, chunk_index := 0, word_count := 7 }

/-- Concrete environment whose retrieval returns one scored chunk and whose
language model always succeeds. -/
def envOneChunk : RAGEnv :=
  { retrieve := fun _ _ => Except.ok [(sampleChunk, 92 / 100)],
    llm := fun _ => Except.ok ("El sistema RAG combina ambos enfoques.", 250),
    firstDoc := some 7, logWriteOk := true }

/-- Concrete environment whose retrieval returns no chunks. -/
def envEmptyRetrieval : RAGEnv :=
  { retrieve := fun _ _ => Except.ok [],
    llm := fun _ => Except.ok ("El sistema RAG combina ambos enfoques.", 250),
    firstDoc := some 7, logWriteOk := true }

theorem toList_asString (l : List Char) : (List.asString l).toList = l := rfl

theorem collapseAux_all_space (l : List Char) :
    ∀ b, ∀ c ∈ collapseAux b l, isPyWs c = true → c = ' ' := by
  induction l with
  | nil => intro b c hc; simp [collapseAux] at hc
  | cons a as ih =>
    intro b c hc hw
    by_cases ha : isPyWs a
    · cases b with
      | true =>
        simp only [collapseAux, ha, if_true] at hc
        exact ih true c hc hw
      | false =>
        have hc2 : c = ' ' ∨ c ∈ collapseAux true as := by
          simpa [collapseAux, ha] using hc
        rcases hc2 with rfl | h2
        · rfl
        · exact ih true c h2 hw
    · have hc2 : c = a ∨ c ∈ collapseAux false as := by
        simpa [collapseAux, ha] using hc
      rcases hc2 with rfl | h2
      · simp [hw] at ha
      · exact ih false c h2 hw

theorem collapseAux_head_not_ws (l : List Char) :
    ∀ c, (collapseAux true l).head? = some c → isPyWs c = false := by
  induction l with
  | nil => intro c hc; simp [collapseAux] at hc
  | cons a as ih =>
    intro c hc
    by_cases ha : isPyWs a
    · simp only [collapseAux, ha, if_true] at hc
      exact ih c hc
    · simp only [collapseAux, ha, if_false, List.head?_cons, Option.some.injEq,
        Bool.false_eq_true] at hc
      subst hc
      simp [ha]

theorem collapseAux_cons_ws_true {a : Char} {as : List Char} (ha : isPyWs a = true) :
    collapseAux true (a :: as) = collapseAux true as := by
  simp [collapseAux, ha]

theorem collapseAux_cons_ws_false {a : Char} {as : List Char} (ha : isPyWs a = true) :
    collapseAux false (a :: as) = ' ' :: collapseAux true as := by
  simp [collapseAux, ha]

theorem collapseAux_cons_nws {a : Char} {as : List Char} (b : Bool)
    (ha : isPyWs a = false) :
    collapseAux b (a :: as) = a :: collapseAux false as := by
  cases b <;> simp [collapseAux, ha]

theorem collapseAux_chain (l : List Char) :
    ∀ b, List.Chain' (fun a b => ¬(isPyWs a = true ∧ isPyWs b = true))
      (collapseAux b l) := by
  induction l with
  | nil => intro b; simp [collapseAux]
  | cons a as ih =>
    intro b
    by_cases ha : isPyWs a
    · cases b with
      | true => rw [collapseAux_cons_ws_true ha]; exact ih true
      | false =>
        rw [collapseAux_cons_ws_false ha]
        refine List.chain'_cons'.mpr ⟨?_, ih true⟩
        intro y hy
        have hns := collapseAux_head_not_ws as y (by simpa using hy)
        simp [hns]
    · have ha2 : isPyWs a = false := by simpa using ha
      rw [collapseAux_cons_nws b ha2]
      refine List.chain'_cons'.mpr ⟨?_, ih false⟩
      intro y hy
      simp [ha2]

theorem collapseAux_flag_irrel (l : List Char)
    (h : ∀ c, l.head? = some c → isPyWs c = false) (b1 b2 : Bool) :
    collapseAux b1 l = collapseAux b2 l := by
  cases l with
  | nil => rfl
  | cons a as =>
    have ha := h a rfl
    rw [collapseAux_cons_nws b1 ha, collapseAux_cons_nws b2 ha]

theorem collapseAux_fixed (l : List Char)
    (hall : ∀ c ∈ l, isPyWs c = true → c = ' ')
    (hch : List.Chain' (fun a b => ¬(isPyWs a = true ∧ isPyWs b = true)) l) :
    collapseAux false l = l := by
  induction l with
  | nil => rfl
  | cons a as ih =>
    rw [List.chain'_cons'] at hch
    have ih2 : collapseAux false as = as :=
      ih (fun c hc hw => hall c (List.mem_cons_of_mem a hc) hw) hch.2
    by_cases ha : isPyWs a
    · have ha2 : a = ' ' := hall a (List.mem_cons_self a as) ha
      subst ha2
      rw [collapseAux_cons_ws_false ha]
      have hhead : ∀ c, as.head? = some c → isPyWs c = false := by
        intro c hc
        have h2 := hch.1 c (by simp [hc])
        rw [ha] at h2
        simp only [true_and] at h2
        simpa using h2
      rw [collapseAux_flag_irrel as hhead true false, ih2]
    · have ha2 : isPyWs a = false := by simpa using ha
      rw [collapseAux_cons_nws false ha2, ih2]

theorem collapseAux_filter (l : List Char) :
    ∀ b, (collapseAux b l).filter (fun c => !isPyWs c)
      = l.filter (fun c => !isPyWs c) := by
  induction l with
  | nil => intro b; rfl
  | cons a as ih =>
    intro b
    by_cases ha : isPyWs a
    · cases b with
      | true => rw [collapseAux_cons_ws_true ha, List.filter_cons, ih true]; simp [ha]
      | false =>
        rw [collapseAux_cons_ws_false ha, List.filter_cons, List.filter_cons, ih true]
        have hsp : isPyWs ' ' = true := by simp [isPyWs]
        simp [ha, hsp]
    · have ha2 : isPyWs a = false := by simpa using ha
      rw [collapseAux_cons_nws b ha2, List.filter_cons, List.filter_cons, ih false]

theorem head_dropWhile_false {α : Type} (p : α → Bool) (l : List α) :
    ∀ c, (l.dropWhile p).head? = some c → p c = false := by
  intro c hc
  have h := List.head?_dropWhile_not p l
  rw [hc] at h
  exact h

theorem dropWhile_fixed {α : Type} (p : α → Bool) (l : List α)
    (h : ∀ c, l.head? = some c → p c = false) : l.dropWhile p = l := by
  cases l with
  | nil => rfl
  | cons a as => rw [List.dropWhile_cons, h a rfl]; simp

theorem filter_not_dropWhile {α : Type} (p : α → Bool) (l : List α) :
    (l.dropWhile p).filter (fun c => !p c) = l.filter (fun c => !p c) := by
  induction l with
  | nil => rfl
  | cons a as ih =>
    rw [List.dropWhile_cons]
    by_cases hpa : p a
    · simp only [hpa, if_true]
      rw [ih, List.filter_cons]
      simp [hpa]
    · simp [hpa]

theorem chain'_of_suffix {α : Type} {R : α → α → Prop} {l1 l2 : List α}
    (h : l1 <:+ l2) (hc : List.Chain' R l2) : List.Chain' R l1 := by
  obtain ⟨t, rfl⟩ := h
  exact (List.chain'_append.mp hc).2.1

theorem stripWs_subset (l : List Char) : ∀ c ∈ stripWs l, c ∈ l := by
  intro c hc
  unfold stripWs dropEndWs at hc
  rw [List.mem_reverse] at hc
  have h1 := (List.dropWhile_sublist isPyWs
    (l := (l.dropWhile isPyWs).reverse)).subset hc
  rw [List.mem_reverse] at h1
  exact (List.dropWhile_sublist isPyWs (l := l)).subset h1

theorem stripWs_chain {R : Char → Char → Prop} (l : List Char)
    (hc : List.Chain' R l) : List.Chain' R (stripWs l) := by
  have h1 : List.Chain' R (l.dropWhile isPyWs) :=
    chain'_of_suffix (List.dropWhile_suffix _) hc
  have h2 : List.Chain' (flip R) (l.dropWhile isPyWs).reverse :=
    List.chain'_reverse.mpr h1
  have h3 : List.Chain' (flip R) ((l.dropWhile isPyWs).reverse.dropWhile isPyWs) :=
    chain'_of_suffix (List.dropWhile_suffix _) h2
  exact List.chain'_reverse.mpr h3

theorem getLast?_stripWs (l : List Char) :
    ∀ c, (stripWs l).getLast? = some c → isPyWs c = false := by
  intro c hc
  unfold stripWs dropEndWs at hc
  rw [List.getLast?_reverse] at hc
  exact head_dropWhile_false _ _ c hc

theorem head?_stripWs (l : List Char) :
    ∀ c, (stripWs l).head? = some c → isPyWs c = false := by
  intro c hc
  unfold stripWs dropEndWs at hc
  rw [List.head?_reverse] at hc
  obtain ⟨t, ht⟩ := List.dropWhile_suffix (l := (l.dropWhile isPyWs).reverse) isPyWs
  have hne : (l.dropWhile isPyWs).reverse.dropWhile isPyWs ≠ [] := by
    intro h0
    rw [h0] at hc
    simp at hc
  have h1 : ((l.dropWhile isPyWs).reverse).getLast? = some c := by
    rw [← ht]
    exact (List.getLast?_append_of_ne_nil t hne).trans hc
  rw [List.getLast?_reverse] at h1
  exact head_dropWhile_false _ _ c h1

theorem stripWs_fixed (l : List Char)
    (hh : ∀ c, l.head? = some c → isPyWs c = false)
    (hl : ∀ c, l.getLast? = some c → isPyWs c = false) : stripWs l = l := by
  unfold stripWs dropEndWs
  rw [dropWhile_fixed isPyWs l hh]
  rw [dropWhile_fixed isPyWs l.reverse (fun c hc => hl c (by rwa [List.head?_reverse] at hc))]
  exact List.reverse_reverse l

theorem stripWs_filter (l : List Char) :
    (stripWs l).filter (fun c => !isPyWs c) = l.filter (fun c => !isPyWs c) := by
  unfold stripWs dropEndWs
  rw [List.filter_reverse, filter_not_dropWhile, List.filter_reverse,
    List.reverse_reverse, filter_not_dropWhile]

theorem stripWs_idem (l : List Char) : stripWs (stripWs l) = stripWs l :=
  stripWs_fixed _ (head?_stripWs l) (getLast?_stripWs l)

theorem pyStrip_idem (s : String) : pyStrip (pyStrip s) = pyStrip s := by
  unfold pyStrip
  rw [toList_asString, stripWs_idem]

theorem cleanChars_wsNormalized (l : List Char) : wsNormalized (cleanChars l) := by
  refine ⟨?_, ?_, ?_, ?_⟩
  · intro c hc hw
    have h1 := stripWs_subset (collapseWs l) c hc
    exact collapseAux_all_space l false c h1 hw
  · exact stripWs_chain _ (collapseAux_chain l false)
  · exact head?_stripWs _
  · exact getLast?_stripWs _

theorem cleanChars_fixed (l : List Char) (h : wsNormalized l) : cleanChars l = l := by
  obtain ⟨h1, h2, h3, h4⟩ := h
  unfold cleanChars collapseWs
  rw [collapseAux_fixed l h1 h2]
  exact stripWs_fixed l h3 h4

theorem cleanChars_idem (l : List Char) : cleanChars (cleanChars l) = cleanChars l :=
  cleanChars_fixed _ (cleanChars_wsNormalized l)

theorem cleanChars_filter (l : List Char) :
    (cleanChars l).filter (fun c => !isPyWs c) = l.filter (fun c => !isPyWs c) := by
  unfold cleanChars collapseWs
  rw [stripWs_filter, collapseAux_filter l false]

theorem clean_text_eq (nfc : String → String) (s : String) :
    clean_text nfc s = (cleanChars (nfc s).toList).asString := rfl

/-- C9: the text normalizer maps empty input to empty output, is idempotent,
returns text in which every whitespace character is a single ASCII space with
no two adjacent whitespace characters and no leading or trailing whitespace,
and preserves the non-whitespace characters of the unicode-normalized input
in order.  The unicode canonicalization itself is the external library call
nfc; the hypotheses record what the Unicode standard guarantees for the NFC
transform: it fixes the empty string, and it fixes any already-normalized
output of the cleaner. -/
theorem clean_text_spec (nfc : String → String)
    (hempty : nfc "" = "")
    (hfix : ∀ s, nfc (clean_text nfc s) = clean_text nfc s) :
    clean_text nfc "" = ""
    ∧ (∀ s, clean_text nfc (clean_text nfc s) = clean_text nfc s)
    ∧ (∀ s, wsNormalized (clean_text nfc s).toList)
    ∧ (∀ s, (clean_text nfc s).toList.filter (fun c => !isPyWs c)
        = (nfc s).toList.filter (fun c => !isPyWs c)) := by
  refine ⟨?_, ?_, ?_, ?_⟩
  · rw [clean_text_eq, hempty]
    rfl
  · intro s
    rw [clean_text_eq nfc (clean_text nfc s), hfix s, clean_text_eq nfc s,
      toList_asString, cleanChars_idem]
  · intro s
    rw [clean_text_eq, toList_asString]
    exact cleanChars_wsNormalized _
  · intro s
    rw [clean_text_eq, toList_asString]
    exact cleanChars_filter _

/-- Witness for C9: the hypotheses hold for the identity normalizer, and the
cleaner evaluates as specified on a concrete messy string. -/
theorem clean_text_spec_witness :
    clean_text (fun s => s) "  hola   mundo\n\tchao  " = "hola mundo chao"
    ∧ clean_text (fun s => s) (clean_text (fun s => s) "  hola   mundo\n\tchao  ")
      = clean_text (fun s => s) "  hola   mundo\n\tchao  " := by
  constructor
  · rfl
  · exact (clean_text_spec (fun s => s) rfl (fun _ => rfl)).2.1 "  hola   mundo\n\tchao  "

theorem pageChunks_mem (k : Nat) (parts : List String) :
    ∀ i, ∀ c ∈ pageChunks k i parts,
      c.page_number = k ∧ ∃ t ∈ parts, pyStrip t ≠ "" ∧ c.content = pyStrip t := by
  induction parts with
  | nil => intro i c hc; simp [pageChunks] at hc
  | cons t rest ih =>
    intro i c hc
    by_cases ht : pyStrip t = ""
    · simp only [pageChunks, ht, if_true] at hc
      obtain ⟨h1, u, hu, h2⟩ := ih i c hc
      exact ⟨h1, u, List.mem_cons_of_mem t hu, h2⟩
    · simp only [pageChunks, ht, if_false, List.mem_cons] at hc
      rcases hc with rfl | hc2
      · exact ⟨rfl, t, List.mem_cons_self t rest, ht, rfl⟩
      · obtain ⟨h1, u, hu, h2⟩ := ih (i + 1) c hc2
        exact ⟨h1, u, List.mem_cons_of_mem t hu, h2⟩

theorem pageChunks_idx (k : Nat) (parts : List String) :
    ∀ i, (pageChunks k i parts).map ChunkDict.chunk_index
      = List.range' i (pageChunks k i parts).length := by
  induction parts with
  | nil => intro i; rfl
  | cons t rest ih =>
    intro i
    by_cases ht : pyStrip t = ""
    · simp only [pageChunks, ht, if_true]
      exact ih i
    · simp only [pageChunks, ht, if_false, List.map_cons, List.length_cons]
      rw [ih (i + 1), List.range'_succ]

theorem pagesChunks_mem (nfc : String → String) (split : String → List String)
    (ps : List (Nat × String)) :
    ∀ i, ∀ c ∈ pagesChunks nfc split ps i,
      ∃ p ∈ ps, pyStrip p.2 ≠ "" ∧ c.page_number = p.1
        ∧ ∃ u, pyStrip u ≠ "" ∧ c.content = pyStrip u := by
  induction ps with
  | nil => intro i c hc; simp [pagesChunks] at hc
  | cons p rest ih =>
    intro i c hc
    obtain ⟨k, t⟩ := p
    by_cases ht : pyStrip t = ""
    · simp only [pagesChunks, ht, if_true] at hc
      obtain ⟨q, hq, h⟩ := ih i c hc
      exact ⟨q, List.mem_cons_of_mem _ hq, h⟩
    · simp only [pagesChunks, ht, if_false, List.mem_append] at hc
      rcases hc with hc1 | hc2
      · obtain ⟨h1, u, _, hu2, h2⟩ := pageChunks_mem k _ i c hc1
        exact ⟨(k, t), List.mem_cons_self _ rest, ht, h1, u, hu2, h2⟩
      · obtain ⟨q, hq, h⟩ := ih _ c hc2
        exact ⟨q, List.mem_cons_of_mem _ hq, h⟩

theorem pagesChunks_idx (nfc : String → String) (split : String → List String)
    (ps : List (Nat × String)) :
    ∀ i, (pagesChunks nfc split ps i).map ChunkDict.chunk_index
      = List.range' i (pagesChunks nfc split ps i).length := by
  induction ps with
  | nil => intro i; rfl
  | cons p rest ih =>
    intro i
    obtain ⟨k, t⟩ := p
    by_cases ht : pyStrip t = ""
    · simp only [pagesChunks, ht, if_true]
      exact ih i
    · simp only [pagesChunks, ht, if_false, List.map_append, List.length_append]
      rw [pageChunks_idx k _ i, ih (i + (pageChunks k i (split (clean_text nfc t))).length)]
      have h := List.range'_append i (pageChunks k i (split (clean_text nfc t))).length
        (pagesChunks nfc split rest
          (i + (pageChunks k i (split (clean_text nfc t))).length)).length 1
      simp only [one_mul] at h
      rw [h, Nat.add_comm]

/-- C3: every chunk produced by chunk_text has content that is non-empty and
already stripped, its chunk_index values are exactly 0..n-1 in order with no
gaps (one global counter across pages), every chunk's page number is a key of
the input mapping, and every chunk comes from a page whose raw text does not
strip to empty (whitespace-only pages contribute nothing). -/
theorem chunk_text_wellformed (nfc : String → String)
    (split : Nat → Nat → String → List String) (svc : ChunkingService)
    (pages : List (Nat × String)) (csA ovA : Option Nat) :
    (∀ c ∈ chunk_text nfc split svc pages csA ovA,
        pyStrip c.content = c.content ∧ c.content ≠ ""
        ∧ ∃ t, (c.page_number, t) ∈ pages ∧ pyStrip t ≠ "")
    ∧ (chunk_text nfc split svc pages csA ovA).map ChunkDict.chunk_index
        = List.range (chunk_text nfc split svc pages csA ovA).length := by
  constructor
  · intro c hc
    obtain ⟨q, hq, hq2, hq3, u, hu1, hu2⟩ :=
      pagesChunks_mem nfc _ (sortPages pages) 0 c hc
    have hqmem : q ∈ pages := (List.perm_insertionSort pageOrder pages).subset hq
    refine ⟨?_, ?_, q.2, ?_, hq2⟩
    · rw [hu2, pyStrip_idem]
    · rw [hu2]
      exact hu1
    · rw [hq3]
      simpa using hqmem
  · rw [List.range_eq_range']
    exact pagesChunks_idx nfc
      (split (pyOrNat csA svc.chunk_size * 4) (pyOrNat ovA svc.chunk_overlap * 4))
      (sortPages pages) 0

/-- C10: an explicit chunk_size or overlap override of zero is swallowed by
the truthiness or of chunking_service.py lines 42-43: chunk_text behaves
exactly as if no override had been passed, the resolved values for the
default-constructed service are 600 and 100, and no argument whatsoever can
make the resolved chunk size or overlap zero. -/
theorem chunk_text_zero_override_uses_defaults (nfc : String → String)
    (split : Nat → Nat → String → List String) (pages : List (Nat × String)) :
    (∀ svc ovA, chunk_text nfc split svc pages (some 0) ovA
        = chunk_text nfc split svc pages none ovA)
    ∧ (∀ svc csA, chunk_text nfc split svc pages csA (some 0)
        = chunk_text nfc split svc pages csA none)
    ∧ pyOrNat (some 0) ChunkingService.default.chunk_size = 600
    ∧ pyOrNat (some 0) ChunkingService.default.chunk_overlap = 100
    ∧ (∀ arg, pyOrNat arg ChunkingService.default.chunk_size ≠ 0)
    ∧ (∀ arg, pyOrNat arg ChunkingService.default.chunk_overlap ≠ 0) := by
  refine ⟨?_, ?_, rfl, rfl, ?_, ?_⟩
  · intro svc ovA
    simp [chunk_text, pyOrNat]
  · intro svc csA
    simp [chunk_text, pyOrNat]
  · intro arg
    cases arg with
    | none => simp [pyOrNat, ChunkingService.default]
    | some v =>
      by_cases hv : v = 0 <;> simp [pyOrNat, ChunkingService.default, hv]
  · intro arg
    cases arg with
    | none => simp [pyOrNat, ChunkingService.default]
    | some v =>
      by_cases hv : v = 0 <;> simp [pyOrNat, ChunkingService.default, hv]

/-- C2: similarity_search returns only rows built from stored chunks with a
non-null embedding, each scored as one minus the cosine distance and at least
min_score, restricted to the requested document when one is given, ordered by
descending score, and cut to at most top_k rows; it is a total function (an
empty candidate set yields an empty list, never an error), and since a cosine
distance is nonnegative, a min_score of 1.1 yields the empty list for every
stored table. -/
theorem similarity_search_spec (dist : List Rat → List Rat → Rat)
    (table : List StoredChunk) (embedding : List Rat) (top_k : Nat)
    (min_score : Rat) (document_id : Option Nat)
    (hdist : ∀ e q, 0 ≤ dist e q) :
    (∀ p ∈ similarity_search dist table embedding top_k min_score document_id,
        (∃ c ∈ table, ∃ e, c.embedding = some e ∧ p = (c, 1 - dist e embedding))
        ∧ min_score ≤ p.2
        ∧ (∀ d, document_id = some d → p.1.document_id = d))
    ∧ List.Sorted scoreOrder
        (similarity_search dist table embedding top_k min_score document_id)
    ∧ (similarity_search dist table embedding top_k min_score document_id).length
        ≤ top_k
    ∧ (min_score = 11 / 10 →
        similarity_search dist table embedding top_k min_score document_id = []) := by
  refine ⟨?_, ?_, ?_, ?_⟩
  · intro p hp
    simp only [similarity_search] at hp
    have hp2 := ((List.perm_insertionSort scoreOrder _).mem_iff).mp
      (List.mem_of_mem_take hp)
    rw [List.mem_map] at hp2
    obtain ⟨ce, hce, rfl⟩ := hp2
    rw [List.mem_filter] at hce
    obtain ⟨hce1, hce2⟩ := hce
    rw [Bool.and_eq_true] at hce2
    rw [List.mem_filterMap] at hce1
    obtain ⟨c, hc, hmap⟩ := hce1
    cases hemb : c.embedding with
    | none => rw [hemb] at hmap; simp at hmap
    | some e =>
      rw [hemb] at hmap
      simp at hmap
      subst hmap
      refine ⟨⟨c, hc, e, hemb, rfl⟩, of_decide_eq_true hce2.2, ?_⟩
      intro d hd
      have h1 := hce2.1
      rw [hd] at h1
      simpa [docMatch] using h1
  · simp only [similarity_search]
    exact List.Pairwise.sublist (List.take_sublist _ _)
      (List.sorted_insertionSort scoreOrder _)
  · simp only [similarity_search]
    rw [List.length_take]
    exact min_le_left _ _
  · intro hms
    simp only [similarity_search]
    have hrows : (table.filterMap (fun c => c.embedding.map (fun e => (c, e)))).filter
        (fun ce => docMatch document_id ce.1
          && decide (min_score ≤ 1 - dist ce.2 embedding)) = [] := by
      rw [List.filter_eq_nil_iff]
      intro ce _ hcontra
      rw [Bool.and_eq_true] at hcontra
      have h2 := of_decide_eq_true hcontra.2
      have h3 := hdist ce.2 embedding
      rw [hms] at h2
      linarith
    rw [hrows]
    simp [List.insertionSort]

/-- Witness for C2: the nonnegativity hypothesis holds for a concrete
distance function, and the threshold 1.1 search over a one-chunk table
evaluates to the empty list. -/
theorem similarity_search_spec_witness :
    similarity_search (fun _ _ => (0 : Rat)) [sampleChunk] [1] 5 (11 / 10) none
      = [] :=
  (similarity_search_spec (fun _ _ => (0 : Rat)) [sampleChunk] [1] 5 (11 / 10)
    none (fun _ _ => le_refl 0)).2.2.2 rfl

theorem startsWithL_iff (n : List Char) : ∀ l, startsWithL n l = true ↔ n <+: l := by
  induction n with
  | nil => intro l; simp [startsWithL, List.nil_prefix]
  | cons a as ih =>
    intro l
    cases l with
    | nil => simp [startsWithL, List.prefix_nil]
    | cons b bs =>
      simp only [startsWithL, Bool.and_eq_true, beq_iff_eq, List.cons_prefix_cons]
      rw [ih bs]

theorem containsSub_iff (n : List Char) : ∀ l, containsSub n l = true ↔ n <:+: l := by
  intro l
  induction l with
  | nil => simp [containsSub, List.infix_nil, List.isEmpty_iff]
  | cons c cs ih =>
    simp only [containsSub, Bool.or_eq_true]
    rw [startsWithL_iff, ih, List.infix_cons_iff]

/-- C5: the answerability flag computed at rag_service.py line 152 is false
exactly when the fixed refusal phrase occurs verbatim as a substring of the
answer text, and true for every other answer text, with no dependence on the
retrieved chunks. -/
theorem is_answerable_iff_refusal_absent (answer : String) :
    (is_answerable_of answer = false
      ↔ NOT_ANSWERABLE_PHRASE.toList <:+: answer.toList)
    ∧ (is_answerable_of answer = true
      ↔ ¬ NOT_ANSWERABLE_PHRASE.toList <:+: answer.toList) := by
  have hiff := containsSub_iff NOT_ANSWERABLE_PHRASE.toList answer.toList
  unfold is_answerable_of pyIn
  cases h : containsSub NOT_ANSWERABLE_PHRASE.toList answer.toList with
  | false =>
    rw [h] at hiff
    simp only [Bool.false_eq_true, false_iff] at hiff
    simp only [String.toList] at hiff
    simp [hiff]
  | true =>
    rw [h] at hiff
    simp only [true_iff] at hiff
    simp only [String.toList] at hiff
    simp [hiff]

theorem chunksOf_join_aux (k : Nat) :
    ∀ (n : Nat) (l : List String), l.length ≤ k → (chunksOf (n + 1) l).flatten = l := by
  induction k with
  | zero =>
    intro n l h
    cases l with
    | nil => simp [chunksOf]
    | cons x xs => simp at h
  | succ k ih =>
    intro n l h
    cases l with
    | nil => simp [chunksOf]
    | cons x xs =>
      simp only [chunksOf, List.flatten_cons]
      have hlen : ((x :: xs).drop (n + 1)).length ≤ k := by
        simp only [List.length_drop, List.length_cons]
        simp only [List.length_cons] at h
        omega
      rw [ih n _ hlen]
      exact List.take_append_drop (n + 1) (x :: xs)

theorem chunksOf_join (n : Nat) (hn : 0 < n) (l : List String) :
    (chunksOf n l).flatten = l := by
  cases n with
  | zero => omega
  | succ m => exact chunksOf_join_aux l.length m l (le_refl _)

theorem chunksOf_length_le_aux (k : Nat) :
    ∀ (n : Nat) (l : List String), l.length ≤ k →
      ∀ g ∈ chunksOf (n + 1) l, g.length ≤ n + 1 := by
  induction k with
  | zero =>
    intro n l h g hg
    cases l with
    | nil => simp [chunksOf] at hg
    | cons x xs => simp at h
  | succ k ih =>
    intro n l h g hg
    cases l with
    | nil => simp [chunksOf] at hg
    | cons x xs =>
      simp only [chunksOf, List.mem_cons] at hg
      rcases hg with rfl | hg2
      · rw [List.length_take]
        exact min_le_left _ _
      · have hlen : ((x :: xs).drop (n + 1)).length ≤ k := by
          simp only [List.length_drop, List.length_cons]
          simp only [List.length_cons] at h
          omega
        exact ih n _ hlen g hg2

theorem chunksOf_length_le (n : Nat) (hn : 0 < n) (l : List String) :
    ∀ g ∈ chunksOf n l, g.length ≤ n := by
  cases n with
  | zero => omega
  | succ m => exact chunksOf_length_le_aux l.length m l (le_refl _)

theorem embedLoop_all_ok (remote : List String → Except String (List (List Rat)))
    (f : List String → List (List Rat)) :
    ∀ gs, (∀ g ∈ gs, remote g = Except.ok (f g)) →
      embedLoop remote gs = (Except.ok (gs.map f).flatten, gs) := by
  intro gs
  induction gs with
  | nil => intro h; rfl
  | cons b bs ih =>
    intro h
    have hb := h b (List.mem_cons_self b bs)
    simp only [embedLoop, hb]
    rw [ih (fun g hg => h g (List.mem_cons_of_mem b hg))]
    rfl

theorem embedLoop_ok_inv (remote : List String → Except String (List (List Rat))) :
    ∀ gs es calls, embedLoop remote gs = (Except.ok es, calls) →
      ∀ g ∈ gs, ∃ r, remote g = Except.ok r := by
  intro gs
  induction gs with
  | nil => intro es calls h g hg; simp at hg
  | cons b bs ih =>
    intro es calls h g hg
    rcases List.mem_cons.mp hg with rfl | hg2
    · cases hr : remote g with
      | ok r => exact ⟨r, rfl⟩
      | error e =>
        simp only [embedLoop, hr] at h
        simp at h
    · cases hr : remote b with
      | error e =>
        simp only [embedLoop, hr] at h
        simp at h
      | ok r =>
        simp only [embedLoop, hr] at h
        cases hbs : embedLoop remote bs with
        | mk r2 calls2 =>
          cases r2 with
          | error e2 => rw [hbs] at h; simp at h
          | ok rest => exact ih rest calls2 hbs g hg2

/-- C6: embed_batch returns an empty result with no remote call on empty
input; fails with EmbeddingServiceError when, after filtering out texts that
strip to empty, no valid text remains; otherwise cuts the filtered texts into
consecutive groups of at most max_batch_size whose concatenation is exactly
the filtered input in its original order, issues one remote call per group,
and concatenates the per-group results in input order; and a failure of any
group call makes the whole batch fail with EmbeddingServiceError. -/
theorem embed_batch_spec (remote : List String → Except String (List (List Rat)))
    (texts : List String) (max_batch_size : Nat) (hB : 0 < max_batch_size) :
    (texts = [] → embed_batch remote texts max_batch_size = (Except.ok [], []))
    ∧ (texts ≠ [] → validTexts texts = [] →
        embed_batch remote texts max_batch_size
          = (Except.error (PyErr.embeddingServiceError
              "No hay textos válidos para generar embeddings"), []))
    ∧ (chunksOf max_batch_size (validTexts texts)).flatten = validTexts texts
    ∧ (∀ g ∈ chunksOf max_batch_size (validTexts texts), g.length ≤ max_batch_size)
    ∧ (∀ f : List String → List (List Rat),
        (∀ g ∈ chunksOf max_batch_size (validTexts texts),
          remote g = Except.ok (f g)) →
        texts ≠ [] → validTexts texts ≠ [] →
        embed_batch remote texts max_batch_size
          = (Except.ok ((chunksOf max_batch_size (validTexts texts)).map f).flatten,
             chunksOf max_batch_size (validTexts texts)))
    ∧ (∀ g e, g ∈ chunksOf max_batch_size (validTexts texts) →
        remote g = Except.error e →
        ∃ m, (embed_batch remote texts max_batch_size).1
          = Except.error (PyErr.embeddingServiceError m)) := by
  refine ⟨?_, ?_, chunksOf_join _ hB _, chunksOf_length_le _ hB _, ?_, ?_⟩
  · intro h
    subst h
    rfl
  · intro h1 h2
    simp only [embed_batch, h2]
    rw [if_neg (by simpa [List.isEmpty_iff] using h1)]
    rfl
  · intro f hok h1 h2
    simp only [embed_batch]
    rw [if_neg (by simpa [List.isEmpty_iff] using h1),
      if_neg (by simpa [List.isEmpty_iff] using h2)]
    rw [embedLoop_all_ok remote f _ hok]
  · intro g e hg hge
    have h2 : validTexts texts ≠ [] := by
      intro h0
      rw [h0] at hg
      cases hB_eq : max_batch_size with
      | zero => omega
      | succ m => rw [hB_eq] at hg; simp [chunksOf] at hg
    have h1 : texts ≠ [] := by
      intro h0
      subst h0
      exact h2 rfl
    cases hloop : embedLoop remote (chunksOf max_batch_size (validTexts texts)) with
    | mk r calls =>
      cases r with
      | ok es =>
        obtain ⟨r2, hr2⟩ := embedLoop_ok_inv remote _ es calls hloop g hg
        rw [hge] at hr2
        cases hr2
      | error e2 =>
        refine ⟨"Error al generar embeddings en batch: " ++ e2, ?_⟩
        simp only [embed_batch]
        rw [if_neg (by simpa [List.isEmpty_iff] using h1),
          if_neg (by simpa [List.isEmpty_iff] using h2), hloop]

/-- Witness for C6: with a positive batch size of two, a remote model that
always succeeds, and one whitespace-only entry among four texts, embed_batch
issues two group calls of at most two texts each and concatenates their
results in order. -/
theorem embed_batch_spec_witness :
    embed_batch (fun g => Except.ok (g.map (fun _ => ([(1 : Rat)]))))
      ["a", " ", "b", "c"] 2
      = (Except.ok [[(1 : Rat)], [(1 : Rat)], [(1 : Rat)]], [["a", "b"], ["c"]]) := by
  have h := (embed_batch_spec (fun g => Except.ok (g.map (fun _ => ([(1 : Rat)]))))
    ["a", " ", "b", "c"] 2 (by decide)).2.2.2.2.1
    (fun g => g.map (fun _ => ([(1 : Rat)]))) (fun g _ => rfl)
    (by decide) (by decide)
  rw [h]
  have hv : validTexts ["a", " ", "b", "c"] = ["a", "b", "c"] := rfl
  rw [hv]
  have hc : chunksOf 2 ["a", "b", "c"] = [["a", "b"], ["c"]] := by
    simp [chunksOf]
  rw [hc]
  rfl

/-- Supporting fact about the formatter alone: on a list of dictionary
arguments (the shape its docstring and unit tests use), the block loop
returns the context blocks labeled with consecutive 1-based ranks and page
labels, in order. -/
theorem formatArgs_dicts (cs : List (String × Option Int)) :
    ∀ i, formatArgs i (cs.map (fun p => CtxArg.dict (some p.1) p.2))
      = Except.ok ((List.range' i cs.length).zipWith
          (fun r p => ctxBlock r (pageLabel p.2) p.1) cs) := by
  induction cs with
  | nil => intro i; rfl
  | cons p rest ih =>
    intro i
    simp only [List.map_cons, formatArgs, ih (i + 1), List.length_cons,
      List.range'_succ, List.zipWith_cons_cons, Option.getD_some]

/-- C1 (failing evaluation): with a retrieval that returns one scored chunk,
answer_question does not produce a labeled context and does not invoke the
language model; the (chunk, score) tuples reach the dictionary-expecting
format_context_from_chunks, whose .get attribute lookup fails on a tuple,
and the call ends as a wrapped RAGSystemError with the language model never
called. -/
theorem answer_question_nonempty_candidates_raises :
    answer_question envOneChunk "¿Qué es RAG?" none
      = (Except.error (PyErr.ragSystemError
          "Error al responder pregunta: tuple object has no attribute get"),
         { retrieveCalled := true, llmCalled := false, logAttempted := false,
           logWritten := false }) := rfl

/-- C4: when retrieval succeeds with no chunks and the question is non-empty,
answer_question short-circuits: it returns the fixed apology with
is_answerable false, zero retrieved chunks, zero tokens and no chunk ids, the
language model is not invoked, and an audit-log write is attempted exactly
when a logging-scope document id exists. -/
theorem answer_question_empty_retrieval_short_circuits (env : RAGEnv)
    (q : String) (d : Option Nat)
    (hq : pyStrip q ≠ "")
    (hr : env.retrieve q d = Except.ok []) :
    answer_question env q d
      = (Except.ok
          { answer := NO_RELEVANT_INFO_MESSAGE, is_answerable := false,
            retrieved_chunks_count := 0, tokens_used := 0, chunk_ids := [] },
         { retrieveCalled := true, llmCalled := false,
           logAttempted := (logDocId d env.firstDoc).isSome,
           logWritten := (logDocId d env.firstDoc).isSome && env.logWriteOk }) := by
  have hq2 : ¬(q = "" ∨ pyStrip q = "") := by
    rintro (rfl | h)
    · exact hq rfl
    · exact hq h
  simp only [answer_question]
  rw [if_neg hq2, hr]
  rfl

/-- Witness for C4: a concrete environment with empty retrieval and a stored
document id for logging scope. -/
theorem answer_question_empty_retrieval_witness :
    answer_question envEmptyRetrieval "¿Qué es RAG?" none
      = (Except.ok
          { answer := NO_RELEVANT_INFO_MESSAGE, is_answerable := false,
            retrieved_chunks_count := 0, tokens_used := 0, chunk_ids := [] },
         { retrieveCalled := true, llmCalled := false, logAttempted := true,
           logWritten := true }) := by
  have h := answer_question_empty_retrieval_short_circuits envEmptyRetrieval
    "¿Qué es RAG?" none (by decide) rfl
  rw [h]
  rfl

/-- C7: an empty or whitespace-only question is rejected by answer_question
and by retrieve_relevant_chunks with the empty-input RAGSystemError before
anything else happens: no retrieval, no embedding call, no vector search, no
language-model call, no audit-log write. -/
theorem empty_question_rejected_before_any_call (env : RAGEnv)
    (embed : String → Except PyErr (List Rat))
    (search : List Rat → Nat → Rat → Option Nat →
      Except PyErr (List (StoredChunk × Rat)))
    (stk : Nat) (sms : Rat) (q : String) (d : Option Nat)
    (tk : Option Nat) (ms : Option Rat)
    (hq : pyStrip q = "") :
    answer_question env q d
      = (Except.error (PyErr.ragSystemError "No se puede responder pregunta vacía"),
         { retrieveCalled := false, llmCalled := false, logAttempted := false,
           logWritten := false })
    ∧ retrieve_relevant_chunks embed search stk sms q d tk ms
      = (Except.error (PyErr.ragSystemError "No se puede buscar con consulta vacía"),
         { embedCalled := false, searchCalled := false }) := by
  constructor
  · simp only [answer_question]
    rw [if_pos (Or.inr hq)]
  · simp only [retrieve_relevant_chunks]
    rw [if_pos (Or.inr hq)]

/-- Witness for C7: the whitespace-only question and the empty question both
evaluate to the immediate rejection with an all-false trace. -/
theorem empty_question_rejected_witness :
    answer_question envOneChunk "   " none
      = (Except.error (PyErr.ragSystemError "No se puede responder pregunta vacía"),
         { retrieveCalled := false, llmCalled := false, logAttempted := false,
           logWritten := false })
    ∧ retrieve_relevant_chunks (fun _ => Except.ok [1])
        (fun _ _ _ _ => Except.ok []) 5 (3 / 10) "" none none none
      = (Except.error (PyErr.ragSystemError "No se puede buscar con consulta vacía"),
         { embedCalled := false, searchCalled := false }) :=
  ⟨(empty_question_rejected_before_any_call envOneChunk (fun _ => Except.ok [1])
      (fun _ _ _ _ => Except.ok []) 5 (3 / 10) "   " none none none (by decide)).1,
   (empty_question_rejected_before_any_call envOneChunk (fun _ => Except.ok [1])
      (fun _ _ _ _ => Except.ok []) 5 (3 / 10) "" none none none rfl).2⟩

/-- C8: the result handed back to the caller by answer_question is identical
whether the audit-log write succeeds or fails; the logging outcome appears
only in the side-effect trace, never in the returned value or error. -/
theorem log_failure_does_not_change_response (env : RAGEnv) (q : String)
    (d : Option Nat) (b1 b2 : Bool) :
    (answer_question { env with logWriteOk := b1 } q d).1
      = (answer_question { env with logWriteOk := b2 } q d).1 := by
  obtain ⟨retr, llmf, fdoc, lok⟩ := env
  by_cases hq : (q = "" ∨ pyStrip q = "")
  · simp only [answer_question]
    rw [if_pos hq, if_pos hq]
  · simp only [answer_question]
    rw [if_neg hq, if_neg hq]
    cases hr : retr q d with
    | error e => rfl
    | ok chunks =>
      by_cases hc : chunks.isEmpty
      · simp only [hc, if_true]
      · simp only [hc, if_false, Bool.false_eq_true]
        cases hf : format_context_from_chunks
            (chunks.map fun p => CtxArg.tup p.1 p.2) with
        | error e => rfl
        | ok ctx =>
          dsimp only
          cases hl : llmf (SYSTEM_PROMPT_TEMPLATE ++ "\n\nContexto:\n" ++ ctx
              ++ "\n\nPregunta: " ++ q) with
          | error e => rfl
          | ok pr => rfl
